import Mathlib

/-!
Verification of the document-analyst relevance pipeline (src/main.py).

The pipeline segments per-page text into paragraphs, extracts keywords from
persona and job descriptions, scores each paragraph by distinct-keyword
density, stable-sorts descending by score, and emits the top sections with
ranks and excerpts.  Python strings are modelled as Lean `String`s over their
character lists; floating-point scores are modelled as exact rationals;
the external PDF parse outcome is modelled as an `Except` value.
-/

/-- Python whitespace characters recognised by `str.strip`, `str.split()` and
the regex class used by `preprocess_text`, restricted to ASCII. -/
def pyIsSpace (c : Char) : Bool :=
  c == ' ' || c == '\t' || c == '\n' || c == '\r' ||
  c == Char.ofNat 11 || c == Char.ofNat 12

/-- ASCII case folding, as `str.lower` acts on ASCII: code points 65–90 are
shifted by 32, every other character is unchanged. -/
def pyToLower (c : Char) : Char :=
  if 65 ≤ c.toNat ∧ c.toNat ≤ 90 then Char.ofNat (c.toNat + 32) else c

/-- The character class kept by the substitution in `preprocess_text`
(line 36 of src/main.py): the regex deletes every character outside
lowercase letters (97–122), digits (48–57) and whitespace. -/
def isKeptChar (c : Char) : Bool :=
  (97 ≤ c.toNat && c.toNat ≤ 122) || (48 ≤ c.toNat && c.toNat ≤ 57) || pyIsSpace c

/-- Python `str.strip()` on a character list: remove leading and trailing
whitespace. -/
def pyStripList (l : List Char) : List Char :=
  ((l.dropWhile pyIsSpace).reverse.dropWhile pyIsSpace).reverse

/-- Python `str.strip()`. -/
def pyStrip (s : String) : String :=
  String.mk (pyStripList s.toList)

/-- Split a character list at whitespace characters, keeping (possibly empty)
groups; `acc` holds the reversed current group. -/
def splitOnSpaceAux : List Char → List Char → List (List Char)
  | acc, [] => [acc.reverse]
  | acc, c :: cs =>
    if pyIsSpace c then acc.reverse :: splitOnSpaceAux [] cs
    else splitOnSpaceAux (c :: acc) cs

/-- Modelled from the spec (§6 Lexical Resource): the external lexical
tokenizer (`nltk.word_tokenize` in src/main.py), which is not part of this
repository.  On text containing only alphanumerics and whitespace — in
particular on every output of `preprocess_text` — the NLTK word tokenizer
coincides with splitting on whitespace runs, which is what this model does:
split at whitespace and drop the empty groups. -/
def word_tokenize (s : String) : List String :=
  ((splitOnSpaceAux [] s.toList).filter (fun g => !g.isEmpty)).map String.mk

/-- Python `text.split('\n\n')` on a character list: split at non-overlapping
occurrences of two consecutive newlines, scanning left to right; `acc` holds
the reversed current piece. -/
def splitParasAux : List Char → List Char → List (List Char)
  | acc, '\n' :: '\n' :: cs => acc.reverse :: splitParasAux [] cs
  | acc, c :: cs => splitParasAux (c :: acc) cs
  | acc, [] => [acc.reverse]

/-- Python `text.split('\n\n')` (line 76 of src/main.py). -/
def splitOnBlankLine (s : String) : List String :=
  (splitParasAux [] s.toList).map String.mk

/-- Lines 33–37 of src/main.py: lowercase the text, then delete every
character that is not a lowercase letter, digit or whitespace. -/
def preprocess_text (s : String) : String :=
  String.mk ((s.toList.map pyToLower).filter isKeptChar)

/-- Python `str.lower` on a whole string (ASCII model). -/
def pyLower (s : String) : String :=
  String.mk (s.toList.map pyToLower)

/-- Python `str.isalnum` restricted to ASCII: non-empty and every character a
letter or digit. -/
def pyStrIsAlnum (s : String) : Bool :=
  !s.toList.isEmpty && s.toList.all (fun c =>
    (97 ≤ c.toNat && c.toNat ≤ 122) || (65 ≤ c.toNat && c.toNat ≤ 90) ||
    (48 ≤ c.toNat && c.toNat ≤ 57))

/-- Modelled from the spec (§6 Lexical Resource): the English stop-word set
supplied by the external lexical resource (`stopwords.words('english')` in
src/main.py), which is data outside this repository; a representative finite
set of common English function words. -/
def stop_words : Finset String :=
  (["i", "me", "my", "we", "our", "you", "your", "he", "him", "his", "she",
    "her", "it", "its", "they", "them", "the", "a", "an", "and", "or", "but",
    "if", "then", "else", "not", "no", "is", "are", "was", "were", "be",
    "been", "being", "have", "has", "had", "do", "does", "did", "to", "of",
    "in", "for", "on", "with", "as", "at", "by", "from", "up", "down", "out",
    "off", "over", "under", "this", "that", "these", "those", "there", "here",
    "what", "which", "who", "whom", "most", "other", "some", "such", "so",
    "than", "too", "very", "can", "will", "just", "about", "into", "through",
    "again", "further", "once", "all", "any", "both", "each", "few", "more",
    "own", "same", "s", "t", "don", "should", "now"] : List String).toFinset

/-- Lines 39–44 of src/main.py: lowercase the description, tokenize it, keep
the purely alphanumeric tokens that are not stop words, and collapse the
result to a set. -/
def get_keywords (description : String) : Finset String :=
  ((word_tokenize (pyLower description)).filter
    (fun w => pyStrIsAlnum w && !(decide (w ∈ stop_words)))).toFinset

/-- Lines 46–55 of src/main.py: keyword-density score.  Returns 0 when the
text is empty (Python falsiness), the keyword set is empty, or the normalized
text has no tokens; otherwise the number of distinct tokens that are keywords
divided by the total token count.  The Python float is modelled as an exact
rational. -/
def calculate_relevance_score (text : String) (keywords : Finset String) : ℚ :=
  if text = "" ∨ keywords = ∅ then 0
  else
    let text_words := word_tokenize (preprocess_text text)
    if text_words = [] then 0
    else
      (((text_words.filter (fun w => decide (w ∈ keywords))).toFinset.card : ℚ)) /
        (text_words.length : ℚ)

/-- The first line used for title derivation (line 61 of src/main.py):
`text.strip().split('\n')[0].strip()`, i.e. the stripped prefix of the
stripped text up to the first newline. -/
def firstLineOf (text : String) : String :=
  pyStrip (String.mk ((pyStrip text).toList.takeWhile (fun c => c ≠ '\n')))

/-- Python `s.rsplit(' ', 1)[0]` on a character list: everything before the
last space, or the whole list when it contains no space. -/
def pyRsplitSpaceHead (l : List Char) : List Char :=
  if ' ' ∈ l then ((l.reverse.dropWhile (fun c => c ≠ ' ')).drop 1).reverse
  else l

/-- Lines 57–66 of src/main.py: derive a section title from a unit's text.
Empty text gives the placeholder "Untitled Section"; a non-empty first line is
returned verbatim when within the length bound and otherwise truncated to the
bound, cut back at the last space, with an ellipsis appended; a first line
that is empty after stripping gives "Relevant Content". -/
def get_section_title_from_text (text : String) (max_length : Nat := 100) : String :=
  if text = "" then "Untitled Section"
  else
    let first_line := firstLineOf text
    if first_line ≠ "" then
      if max_length < first_line.length then
        String.mk (pyRsplitSpaceHead (first_line.toList.take max_length)) ++ "..."
      else first_line
    else "Relevant Content"

/-- A page of extracted text as handed to the core: page number and raw text
(lines 24–27 of src/main.py). -/
structure Page where
  page_number : Nat
  text : String
deriving DecidableEq

/-- One paragraph-level unit produced by segmentation (lines 82–87 of
src/main.py). -/
structure ContentUnit where
  document : String
  page_number : Nat
  text_content : String
  paragraph_index : Nat
deriving DecidableEq

/-- A content unit together with the score attached at line 97 of
src/main.py. -/
structure ScoredUnit extends ContentUnit where
  score : ℚ
deriving DecidableEq

/-- One entry of `extracted_sections` (lines 107–112 of src/main.py). -/
structure RankedSection where
  document : String
  page_number : Nat
  section_title : String
  importance_rank : Nat
deriving DecidableEq

/-- One entry of `sub_section_analysis` (lines 113–117 of src/main.py). -/
structure SubSection where
  document : String
  page_number : Nat
  refined_text : String
deriving DecidableEq

/-- The run metadata block (lines 120–125 of src/main.py); the wall-clock
timestamp is a parameter of the model. -/
structure Metadata where
  input_document : String
  persona : String
  job_to_be_done : String
  processing_timestamp : String
deriving DecidableEq

/-- The full per-document result (lines 119–128 of src/main.py). -/
structure AnalysisResult where
  metadata : Metadata
  extracted_sections : List RankedSection
  sub_section_analysis : List SubSection
deriving DecidableEq

/-- Lines 19–31 of src/main.py.  The external PDF parse is modelled as an
`Except` value: `error` when `pdfplumber` raises (the function then returns
the empty page list), `ok texts` with one extracted string per page otherwise
(`""` standing for a falsy `extract_text` result).  Pages are numbered from 1
by position and falsy pages are dropped. -/
def extract_text_from_pdf (parsed : Except String (List String)) : List Page :=
  match parsed with
  | .error _ => []
  | .ok texts =>
    texts.enum.filterMap (fun it =>
      if it.2 ≠ "" then some ⟨it.1 + 1, it.2⟩ else none)

/-- Lines 75–87 of src/main.py, for one page: split on blank lines, strip,
keep the non-empty paragraphs; if none remain fall back to the whole stripped
page text; emit a unit per truthy paragraph with its enumeration index. -/
def segmentPage (doc_name : String) (page : Page) : List ContentUnit :=
  let kept := ((splitOnBlankLine page.text).map pyStrip).filter (fun p => p != "")
  let paragraphs := if kept = [] then [pyStrip page.text] else kept
  paragraphs.enum.filterMap (fun pi =>
    if pi.2 ≠ "" then
      some ⟨doc_name, page.page_number, pi.2, pi.1⟩
    else none)

/-- Lines 75–87 of src/main.py over all pages, in page order. -/
def all_extracted_content (doc_name : String) (pages : List Page) : List ContentUnit :=
  pages.flatMap (segmentPage doc_name)

/-- Lines 89–91 of src/main.py: the union of the persona and job keyword
sets. -/
def combined_keywords (persona_description job_to_be_done : String) : Finset String :=
  get_keywords persona_description ∪ get_keywords job_to_be_done

/-- Lines 93–98 of src/main.py: score every unit and keep exactly those with
strictly positive score, in segmentation order. -/
def scored_content (doc_name : String) (pages : List Page)
    (keywords : Finset String) : List ScoredUnit :=
  (all_extracted_content doc_name pages).filterMap (fun item =>
    let score := calculate_relevance_score item.text_content keywords
    if 0 < score then some ⟨item, score⟩ else none)

/-- The comparison used at line 100 of src/main.py:
`sort(key=lambda x: x["score"], reverse=True)` keeps `a` before `b` exactly
when `b`'s score does not exceed `a`'s. -/
def scoreDescLE (a b : ScoredUnit) : Bool :=
  decide (b.score ≤ a.score)

/-- Line 100 of src/main.py: Python's stable sort, descending by score,
modelled by the stable `List.mergeSort`. -/
def sorted_content (doc_name : String) (pages : List Page)
    (keywords : Finset String) : List ScoredUnit :=
  (scored_content doc_name pages keywords).mergeSort scoreDescLE

/-- Line 105 of src/main.py. -/
def max_sections_to_output : Nat := 10

/-- Lines 106–112 of src/main.py: the top sections with 1-based ranks. -/
def output_sections (doc_name : String) (pages : List Page)
    (keywords : Finset String) : List RankedSection :=
  ((sorted_content doc_name pages keywords).take max_sections_to_output).enum.map
    (fun iu =>
      ⟨iu.2.document, iu.2.page_number,
        get_section_title_from_text iu.2.text_content, iu.1 + 1⟩)

/-- Lines 106, 113–117 of src/main.py: the excerpt list, in the same order. -/
def output_sub_sections (doc_name : String) (pages : List Page)
    (keywords : Finset String) : List SubSection :=
  ((sorted_content doc_name pages keywords).take max_sections_to_output).map
    (fun u => ⟨u.document, u.page_number, u.text_content⟩)

/-- Lines 70–128 of src/main.py: the whole per-document pipeline.  The
document name, the parse outcome and the timestamp are parameters standing
for the filesystem path, the `pdfplumber` call and `datetime.now()`. -/
def intelligent_document_analyst (doc_name : String)
    (parsed : Except String (List String))
    (persona_description job_to_be_done timestamp : String) : AnalysisResult :=
  let pages := extract_text_from_pdf parsed
  let keywords := combined_keywords persona_description job_to_be_done
  { metadata := ⟨doc_name, persona_description, job_to_be_done, timestamp⟩
    extracted_sections := output_sections doc_name pages keywords
    sub_section_analysis := output_sub_sections doc_name pages keywords }

/-- The per-document body of the `__main__` loop (lines 150–165 of
src/main.py): run the analyst and persist its result; `none` would model the
except-branch, but in this model the analyst is total, so a result is always
produced and persisted. -/
def process_document (filename : String) (parsed : Except String (List String))
    (persona_description job_to_be_done timestamp : String) : Option AnalysisResult :=
  some (intelligent_document_analyst filename parsed
    persona_description job_to_be_done timestamp)

/-- The `__main__` loop over the discovered documents (lines 150–165 of
src/main.py): every document is processed with the same persona and job. -/
def run_batch (docs : List (String × Except String (List String)))
    (persona_description job_to_be_done timestamp : String) :
    List (String × Option AnalysisResult) :=
  docs.map (fun d =>
    (d.1, process_document d.1 d.2 persona_description job_to_be_done timestamp))

/-- Characters kept by `preprocess_text`'s character class are fixed points of
ASCII lowercasing. -/
theorem pyToLower_of_kept (c : Char) (h : isKeptChar c = true) : pyToLower c = c := by
  unfold isKeptChar pyIsSpace at h
  unfold pyToLower
  simp only [Bool.or_eq_true, decide_eq_true_eq, Bool.and_eq_true, beq_iff_eq] at h
  rcases h with (⟨h1, h2⟩ | ⟨h1, h2⟩) | h
  · rw [if_neg]; omega
  · rw [if_neg]; omega
  · rcases h with ((((h | h) | h) | h) | h) | h <;> subst h <;> decide

/-- Every character of a preprocessed string is in the kept class. -/
theorem mem_preprocess_kept (s : String) (c : Char)
    (h : c ∈ (preprocess_text s).toList) : isKeptChar c = true := by
  unfold preprocess_text at h
  exact List.of_mem_filter h

/-- C9: text normalization is idempotent: applying `preprocess_text` to its
own output changes nothing, since the output contains only lowercase letters,
digits and whitespace, all fixed by lowercasing and kept by the filter. -/
theorem preprocess_text_idempotent (s : String) :
    preprocess_text (preprocess_text s) = preprocess_text s := by
  have hmk : ∀ l : List Char, (String.mk l).toList = l := fun _ => rfl
  unfold preprocess_text
  refine congrArg String.mk ?_
  rw [hmk]
  have h1 : ((s.toList.map pyToLower).filter isKeptChar).map pyToLower
      = (s.toList.map pyToLower).filter isKeptChar := by
    rw [List.map_congr_left (fun a ha => pyToLower_of_kept a (List.of_mem_filter ha))]
    exact List.map_id _
  rw [h1]
  exact List.filter_eq_self.mpr (fun a ha => List.of_mem_filter ha)

/-- C10: title derivation on the empty (falsy) text does not fail and returns
the constant placeholder "Untitled Section". -/
theorem get_section_title_of_empty_text :
    get_section_title_from_text "" = "Untitled Section" := rfl

/-- C3: the relevance score is exactly 0 whenever the keyword set is empty or
the text normalizes to an empty token sequence. -/
theorem calculate_relevance_score_eq_zero (T : String) (K : Finset String)
    (h : K = ∅ ∨ word_tokenize (preprocess_text T) = []) :
    calculate_relevance_score T K = 0 := by
  rcases h with hK | hT
  · simp [calculate_relevance_score, hK]
  · by_cases hT0 : T = ""
    · simp [calculate_relevance_score, hT0]
    · simp [calculate_relevance_score, hT0, hT]

/-- Witness for C3 at a concrete input: "!!!" normalizes to no tokens, so its
score against the singleton keyword set is 0. -/
theorem calculate_relevance_score_eq_zero_witness :
    (({"x"} : Finset String) = ∅ ∨ word_tokenize (preprocess_text "!!!") = []) ∧
      calculate_relevance_score "!!!" {"x"} = 0 :=
  ⟨Or.inr (by decide),
    calculate_relevance_score_eq_zero "!!!" {"x"} (Or.inr (by decide))⟩

/-- C2: when the normalized token sequence of the text is non-empty and at
least one keyword occurs among those tokens, the relevance score is strictly
positive and at most 1. -/
theorem calculate_relevance_score_pos_le_one (T : String) (K : Finset String)
    (hT : word_tokenize (preprocess_text T) ≠ [])
    (hK : ∃ k ∈ K, k ∈ word_tokenize (preprocess_text T)) :
    0 < calculate_relevance_score T K ∧ calculate_relevance_score T K ≤ 1 := by
  obtain ⟨k, hkK, hkT⟩ := hK
  have hKne : K ≠ ∅ := Finset.ne_empty_of_mem hkK
  have hT0 : T ≠ "" := by
    intro h
    subst h
    exact hT rfl
  have hscore : calculate_relevance_score T K =
      (((word_tokenize (preprocess_text T)).filter
          (fun w => decide (w ∈ K))).toFinset.card : ℚ) /
        ((word_tokenize (preprocess_text T)).length : ℚ) := by
    simp [calculate_relevance_score, hT0, hKne, hT]
  have hlen : 0 < (word_tokenize (preprocess_text T)).length :=
    List.length_pos.mpr hT
  have hkmem : k ∈ ((word_tokenize (preprocess_text T)).filter
      (fun w => decide (w ∈ K))).toFinset := by
    rw [List.mem_toFinset, List.mem_filter]
    exact ⟨hkT, by simpa using hkK⟩
  have hcard : 0 < ((word_tokenize (preprocess_text T)).filter
      (fun w => decide (w ∈ K))).toFinset.card :=
    Finset.card_pos.mpr ⟨k, hkmem⟩
  have hcardle : ((word_tokenize (preprocess_text T)).filter
      (fun w => decide (w ∈ K))).toFinset.card ≤
        (word_tokenize (preprocess_text T)).length :=
    le_trans (List.toFinset_card_le _) (List.length_filter_le _ _)
  rw [hscore]
  constructor
  · exact div_pos (by exact_mod_cast hcard) (by exact_mod_cast hlen)
  · rw [div_le_one (by exact_mod_cast hlen)]
    exact_mod_cast hcardle

/-- Witness for C2 at a concrete input: "climate risk" against the keyword
set containing "climate" scores one half. -/
theorem calculate_relevance_score_pos_le_one_witness :
    word_tokenize (preprocess_text "climate risk") ≠ [] ∧
    (∃ k ∈ ({"climate"} : Finset String),
      k ∈ word_tokenize (preprocess_text "climate risk")) ∧
    0 < calculate_relevance_score "climate risk" {"climate"} ∧
    calculate_relevance_score "climate risk" {"climate"} ≤ 1 :=
  ⟨by decide, ⟨"climate", by decide, by decide⟩,
    calculate_relevance_score_pos_le_one "climate risk" {"climate"} (by decide)
      ⟨"climate", by decide, by decide⟩⟩

/-- C4: duplicating a word token that already matches a keyword leaves the
distinct-match numerator unchanged and grows the denominator, so the score of
the text with the duplicated token does not exceed the original score.  The
duplication is stated on the normalized token sequences: the second text
tokenizes to the first one's tokens with one extra copy of the matched token
inserted. -/
theorem duplicate_matched_token_score_le (T Tdup : String) (K : Finset String)
    (t : String) (l₁ l₂ : List String)
    (hT : word_tokenize (preprocess_text T) = l₁ ++ l₂)
    (hTdup : word_tokenize (preprocess_text Tdup) = l₁ ++ t :: l₂)
    (htK : t ∈ K) (htl : t ∈ l₁ ++ l₂) :
    calculate_relevance_score Tdup K ≤ calculate_relevance_score T K := by
  have hKne : K ≠ ∅ := Finset.ne_empty_of_mem htK
  have hl : l₁ ++ l₂ ≠ [] := List.ne_nil_of_mem htl
  have hl' : l₁ ++ t :: l₂ ≠ [] := by simp
  have hT0 : T ≠ "" := by
    intro h
    subst h
    rw [show word_tokenize (preprocess_text "") = [] from rfl] at hT
    exact hl hT.symm
  have hT0' : Tdup ≠ "" := by
    intro h
    subst h
    rw [show word_tokenize (preprocess_text "") = [] from rfl] at hTdup
    exact hl' hTdup.symm
  have hsT : calculate_relevance_score T K =
      (((l₁ ++ l₂).filter (fun w => decide (w ∈ K))).toFinset.card : ℚ) /
        ((l₁ ++ l₂).length : ℚ) := by
    simp [calculate_relevance_score, hT0, hKne, hT, hl]
  have hsT' : calculate_relevance_score Tdup K =
      (((l₁ ++ t :: l₂).filter (fun w => decide (w ∈ K))).toFinset.card : ℚ) /
        ((l₁ ++ t :: l₂).length : ℚ) := by
    simp [calculate_relevance_score, hT0', hKne, hTdup, hl']
  have hnum : ((l₁ ++ t :: l₂).filter (fun w => decide (w ∈ K))).toFinset =
      ((l₁ ++ l₂).filter (fun w => decide (w ∈ K))).toFinset := by
    have htl' : t ∈ l₁ ∨ t ∈ l₂ := List.mem_append.mp htl
    ext x
    simp only [List.mem_toFinset, List.mem_filter, List.mem_append,
      List.mem_cons, decide_eq_true_eq]
    constructor
    · rintro ⟨hx, hpx⟩
      refine ⟨?_, hpx⟩
      rcases hx with h | h | h
      · exact Or.inl h
      · exact h ▸ htl'
      · exact Or.inr h
    · rintro ⟨hx, hpx⟩
      exact ⟨by tauto, hpx⟩
  have hlen : ((l₁ ++ t :: l₂).length : ℚ) = ((l₁ ++ l₂).length : ℚ) + 1 := by
    push_cast [List.length_append, List.length_cons]
    ring
  rw [hsT, hsT', hnum, hlen]
  have hd : (0 : ℚ) < ((l₁ ++ l₂).length : ℚ) := by
    exact_mod_cast List.length_pos.mpr hl
  exact div_le_div_of_nonneg_left (by positivity) hd (by linarith)

/-- Witness for C4 at a concrete input: duplicating "climate" in
"climate risk" drops the score from one half to one third. -/
theorem duplicate_matched_token_score_le_witness :
    word_tokenize (preprocess_text "climate risk") = [] ++ ["climate", "risk"] ∧
    word_tokenize (preprocess_text "climate climate risk") =
      [] ++ "climate" :: ["climate", "risk"] ∧
    "climate" ∈ ({"climate"} : Finset String) ∧
    "climate" ∈ ([] ++ ["climate", "risk"] : List String) ∧
    calculate_relevance_score "climate climate risk" {"climate"} ≤
      calculate_relevance_score "climate risk" {"climate"} :=
  ⟨by decide, by decide, by decide, by decide,
    duplicate_matched_token_score_le "climate risk" "climate climate risk"
      {"climate"} "climate" [] ["climate", "risk"]
      (by decide) (by decide) (by decide) (by decide)⟩

/-- Counterexample to C5 as stated: the page text "\n" is a non-empty string,
yet segmentation produces no ContentUnit for it — the blank-line split leaves
nothing, the fallback paragraph strips to the empty string, and the truthiness
guard then drops it. -/
theorem segmentPage_whitespace_page_counterexample :
    ("\n" : String) ≠ "" ∧ segmentPage "doc.pdf" ⟨1, "\n"⟩ = [] := by
  constructor
  · decide
  · decide

/-- C5 (amended): every page whose raw text strips to a non-empty string
yields at least one ContentUnit, via the whole-page fallback when blank-line
splitting leaves no paragraphs. -/
theorem segmentPage_nonblank_ne_nil (doc_name : String) (page : Page)
    (h : pyStrip page.text ≠ "") : segmentPage doc_name page ≠ [] := by
  unfold segmentPage
  by_cases hnil :
      ((splitOnBlankLine page.text).map pyStrip).filter (fun p => p != "") = []
  · simp [hnil, h]
  · obtain ⟨p, rest, hcons⟩ := List.exists_cons_of_ne_nil hnil
    have hp : (p != "") = true := by
      have hmem : p ∈ ((splitOnBlankLine page.text).map pyStrip).filter
          (fun p => p != "") := by
        rw [hcons]
        exact List.mem_cons_self _ _
      exact (List.mem_filter.mp hmem).2
    have hp' : p ≠ "" := by simpa using hp
    simp [hcons, hp', List.enum_cons, List.filterMap_cons]

/-- Witness for the amended C5 at a concrete input: the page text "hello"
strips to a non-empty string and yields a unit. -/
theorem segmentPage_nonblank_ne_nil_witness :
    pyStrip "hello" ≠ "" ∧ segmentPage "doc.pdf" ⟨1, "hello"⟩ ≠ [] :=
  ⟨by decide, segmentPage_nonblank_ne_nil "doc.pdf" ⟨1, "hello"⟩ (by decide)⟩

/-- C8: when the combined persona/job keyword set is empty, every extracted
unit scores 0, and the run still returns a full result whose ranked-section
and excerpt lists are both empty (the model is a total function, so no error
can be raised). -/
theorem empty_keywords_degenerate_result (doc_name : String)
    (parsed : Except String (List String))
    (persona_description job_to_be_done timestamp : String)
    (h : combined_keywords persona_description job_to_be_done = ∅) :
    (∀ u ∈ all_extracted_content doc_name (extract_text_from_pdf parsed),
      calculate_relevance_score u.text_content
        (combined_keywords persona_description job_to_be_done) = 0) ∧
    (intelligent_document_analyst doc_name parsed
      persona_description job_to_be_done timestamp).extracted_sections = [] ∧
    (intelligent_document_analyst doc_name parsed
      persona_description job_to_be_done timestamp).sub_section_analysis = [] := by
  have hzero : ∀ text : String,
      calculate_relevance_score text
        (combined_keywords persona_description job_to_be_done) = 0 := by
    intro text
    simp [calculate_relevance_score, h]
  have hsc : scored_content doc_name (extract_text_from_pdf parsed)
      (combined_keywords persona_description job_to_be_done) = [] := by
    unfold scored_content
    rw [List.filterMap_eq_nil_iff]
    intro a _
    simp [hzero a.text_content]
  refine ⟨fun u _ => hzero u.text_content, ?_, ?_⟩
  · simp [intelligent_document_analyst, output_sections, sorted_content, hsc]
  · simp [intelligent_document_analyst, output_sub_sections, sorted_content, hsc]

/-- Witness for C8 at a concrete input: empty persona and job descriptions
yield an empty keyword set, and the one-page document produces empty ranked
and excerpt lists. -/
theorem empty_keywords_degenerate_result_witness :
    combined_keywords "" "" = ∅ ∧
    (∀ u ∈ all_extracted_content "doc.pdf"
        (extract_text_from_pdf (Except.ok ["hello world"])),
      calculate_relevance_score u.text_content (combined_keywords "" "") = 0) ∧
    (intelligent_document_analyst "doc.pdf" (Except.ok ["hello world"])
      "" "" "2025-01-01T00:00:00").extracted_sections = [] ∧
    (intelligent_document_analyst "doc.pdf" (Except.ok ["hello world"])
      "" "" "2025-01-01T00:00:00").sub_section_analysis = [] :=
  ⟨by decide,
    (empty_keywords_degenerate_result "doc.pdf" (Except.ok ["hello world"])
      "" "" "2025-01-01T00:00:00" (by decide)).1,
    (empty_keywords_degenerate_result "doc.pdf" (Except.ok ["hello world"])
      "" "" "2025-01-01T00:00:00" (by decide)).2.1,
    (empty_keywords_degenerate_result "doc.pdf" (Except.ok ["hello world"])
      "" "" "2025-01-01T00:00:00" (by decide)).2.2⟩

/-- Counterexample to C7 as stated: when the PDF parse fails, the `__main__`
loop still invokes the pipeline (which sees an empty page list) and persists a
result for that document, rather than skipping it. -/
theorem extraction_failure_result_produced_counterexample :
    process_document "doc1.pdf" (Except.error "cannot open PDF")
      "persona" "job" "t0" ≠ none := by
  simp [process_document]

/-- C7 (amended): a failed extraction is converted into an empty page list by
`extract_text_from_pdf`; the pipeline still runs and produces — and the loop
persists — a result with empty ranked-section and excerpt lists, and every
document of the batch is still processed. -/
theorem extraction_failure_empty_result (filename e : String)
    (persona_description job_to_be_done timestamp : String) :
    extract_text_from_pdf (Except.error e) = [] ∧
    process_document filename (Except.error e)
        persona_description job_to_be_done timestamp =
      some (intelligent_document_analyst filename (Except.error e)
        persona_description job_to_be_done timestamp) ∧
    (intelligent_document_analyst filename (Except.error e)
      persona_description job_to_be_done timestamp).extracted_sections = [] ∧
    (intelligent_document_analyst filename (Except.error e)
      persona_description job_to_be_done timestamp).sub_section_analysis = [] ∧
    ∀ docs : List (String × Except String (List String)),
      (run_batch docs persona_description job_to_be_done timestamp).length =
        docs.length := by
  refine ⟨rfl, rfl, ?_, ?_, fun docs => by simp [run_batch]⟩
  · simp [intelligent_document_analyst, output_sections, sorted_content,
      scored_content, all_extracted_content, extract_text_from_pdf]
  · simp [intelligent_document_analyst, output_sub_sections, sorted_content,
      scored_content, all_extracted_content, extract_text_from_pdf]

/-- The sort comparison is transitive. -/
theorem scoreDescLE_trans (a b c : ScoredUnit)
    (h1 : scoreDescLE a b) (h2 : scoreDescLE b c) : scoreDescLE a c = true := by
  simp only [scoreDescLE, decide_eq_true_eq] at h1 h2 ⊢
  exact le_trans h2 h1

/-- The sort comparison is total. -/
theorem scoreDescLE_total (a b : ScoredUnit) :
    scoreDescLE a b || scoreDescLE b a := by
  simp only [scoreDescLE, Bool.or_eq_true, decide_eq_true_eq]
  exact le_total b.score a.score

/-- Ranks produced by enumerating from `n` and adding one are the contiguous
range starting at `n + 1`. -/
theorem enumFrom_ranks (n : Nat) (l : List α) :
    (l.enumFrom n).map (fun p : Nat × α => p.1 + 1) =
      List.range' (n + 1) l.length := by
  induction l generalizing n with
  | nil => rfl
  | cons a as ih =>
    simp only [List.enumFrom_cons, List.map_cons, List.length_cons,
      List.range'_succ, ih]

/-- Stability of the sort at line 100 of src/main.py: for every score value,
the sorted list restricted to that score is exactly the pre-sort list
restricted to that score, in the same order. -/
theorem sorted_content_filter_score (doc_name : String) (pages : List Page)
    (keywords : Finset String) (q : ℚ) :
    (sorted_content doc_name pages keywords).filter (fun u => u.score == q) =
      (scored_content doc_name pages keywords).filter (fun u => u.score == q) := by
  have hBpair : ((scored_content doc_name pages keywords).filter
      (fun u => u.score == q)).Pairwise (fun a b => scoreDescLE a b) := by
    apply List.pairwise_of_forall_mem_list
    intro a ha b hb
    have haq : a.score = q := by simpa using (List.mem_filter.mp ha).2
    have hbq : b.score = q := by simpa using (List.mem_filter.mp hb).2
    simp [scoreDescLE, haq, hbq]
  have hsub : List.Sublist
      ((scored_content doc_name pages keywords).filter (fun u => u.score == q))
      (sorted_content doc_name pages keywords) :=
    List.sublist_mergeSort scoreDescLE_trans scoreDescLE_total hBpair
      (List.filter_sublist _)
  have hsub2 : List.Sublist
      ((scored_content doc_name pages keywords).filter (fun u => u.score == q))
      ((sorted_content doc_name pages keywords).filter (fun u => u.score == q)) := by
    have h2 := hsub.filter (fun u => u.score == q)
    rw [List.filter_filter] at h2
    simpa only [Bool.and_self] using h2
  have hperm : List.Perm
      ((sorted_content doc_name pages keywords).filter (fun u => u.score == q))
      ((scored_content doc_name pages keywords).filter (fun u => u.score == q)) :=
    (List.mergeSort_perm _ scoreDescLE).filter _
  exact (hsub2.eq_of_length hperm.length_eq.symm).symm

/-- C1: the selected units are in non-increasing score order; for every score
value the sorted list restricted to that score equals the pre-sort
(segmentation-order) list so restricted, so ties keep the original page-then-
paragraph order; and the importance ranks of the selected sections are exactly
the contiguous sequence 1, 2, ..., N. -/
theorem analyst_ranking_sorted_stable_ranks (doc_name : String)
    (pages : List Page) (keywords : Finset String) :
    ((sorted_content doc_name pages keywords).take max_sections_to_output).Pairwise
      (fun a b => b.score ≤ a.score) ∧
    (∀ q : ℚ,
      (sorted_content doc_name pages keywords).filter (fun u => u.score == q) =
        (scored_content doc_name pages keywords).filter (fun u => u.score == q)) ∧
    (output_sections doc_name pages keywords).map (fun s => s.importance_rank) =
      List.range' 1 (output_sections doc_name pages keywords).length := by
  refine ⟨?_, sorted_content_filter_score doc_name pages keywords, ?_⟩
  · have hs : (sorted_content doc_name pages keywords).Pairwise
        (fun a b => scoreDescLE a b = true) :=
      List.sorted_mergeSort scoreDescLE_trans scoreDescLE_total _
    have hs' : (sorted_content doc_name pages keywords).Pairwise
        (fun a b => b.score ≤ a.score) :=
      hs.imp (fun h => by simpa [scoreDescLE] using h)
    exact List.Pairwise.sublist (List.take_sublist _ _) hs'
  · unfold output_sections
    rw [List.map_map]
    rw [show ((fun s : RankedSection => s.importance_rank) ∘
        (fun iu : Nat × ScoredUnit => RankedSection.mk iu.2.document
          iu.2.page_number (get_section_title_from_text iu.2.text_content)
          (iu.1 + 1))) = fun p : Nat × ScoredUnit => p.1 + 1 from rfl]
    rw [List.enum_eq_enumFrom, enumFrom_ranks]
    simp


/-- The truncation rule exactly as the claim words it, reading "whitespace
boundary" as any whitespace character: truncate the first line to the maximum
and cut back to before the last whitespace of the truncated prefix (kept
whole when it contains no whitespace). -/
def truncateAtLastWhitespace (l : List Char) (max : Nat) : List Char :=
  let t := l.take max
  if t.any pyIsSpace then
    ((t.reverse.dropWhile (fun c => !(pyIsSpace c))).drop 1).reverse
  else t

/-- A first line of 101 characters whose only whitespace is a tab: 50 letters,
one tab, 50 letters. -/
def tabLineText : String := "aaaaaaaaaaaaaaaaaaaaaaaaaaaaaaaaaaaaaaaaaaaaaaaaaa\tbbbbbbbbbbbbbbbbbbbbbbbbbbbbbbbbbbbbbbbbbbbbbbbbbb"

/-- Counterexample to C6 as stated: on a first line longer than the maximum
whose last whitespace inside the truncated prefix is a tab, the code does not
cut back to that whitespace boundary — `rsplit(' ', 1)` only looks for the
space character — so the result differs from the claimed truncation. -/
theorem title_truncation_whitespace_counterexample :
    tabLineText ≠ "" ∧
    firstLineOf tabLineText ≠ "" ∧
    100 < (firstLineOf tabLineText).length ∧
    get_section_title_from_text tabLineText ≠
      String.mk (truncateAtLastWhitespace (firstLineOf tabLineText).toList 100) ++
        "..." := by
  refine ⟨by decide, by decide, by decide, by decide⟩

/-- Decomposition of `rsplit(' ', 1)[0]`: when the list contains a space, it
splits as the head part, the last space, and a space-free tail. -/
theorem pyRsplitSpaceHead_split (l : List Char) (h : ' ' ∈ l) :
    l = pyRsplitSpaceHead l ++
        ' ' :: (l.reverse.takeWhile (fun c => c ≠ ' ')).reverse ∧
    ' ' ∉ (l.reverse.takeWhile (fun c => c ≠ ' ')).reverse := by
  have hr : ' ' ∈ l.reverse := List.mem_reverse.mpr h
  have hdw : l.reverse.dropWhile (fun c => c ≠ ' ') ≠ [] := by
    intro hnil
    have h2 := List.dropWhile_eq_nil_iff.mp hnil ' ' hr
    simp at h2
  have hb : ((l.reverse.dropWhile (fun c => c ≠ ' ')).head hdw) = ' ' := by
    have h3 := List.head_dropWhile_not (fun c => c ≠ ' ') l.reverse hdw
    simpa using h3
  have hcons : l.reverse.dropWhile (fun c => c ≠ ' ') =
      ' ' :: (l.reverse.dropWhile (fun c => c ≠ ' ')).tail := by
    have h5 := List.head_cons_tail (l.reverse.dropWhile (fun c => c ≠ ' ')) hdw
    rw [hb] at h5
    exact h5.symm
  have hsplit : l.reverse.takeWhile (fun c => c ≠ ' ') ++
      ' ' :: (l.reverse.dropWhile (fun c => c ≠ ' ')).tail = l.reverse := by
    rw [← hcons]
    exact List.takeWhile_append_dropWhile _ _
  constructor
  · conv_lhs => rw [← List.reverse_reverse l, ← hsplit]
    unfold pyRsplitSpaceHead
    rw [if_pos h, List.drop_one]
    rw [List.reverse_append, List.reverse_cons]
    rw [List.append_assoc]
    rfl
  · intro hmem
    have h4 := List.mem_takeWhile_imp (List.mem_reverse.mp hmem)
    simp at h4

/-- C6 (amended): for non-empty unit text, the derived title is the trimmed
first line verbatim when its length is within the maximum; when it is longer,
the title is the first line truncated to the maximum and cut back to before
its last space, kept whole when the truncated prefix contains no space, with
an ellipsis marker appended; and when the first line is empty after trimming
the title is the constant placeholder "Relevant Content". -/
theorem title_derivation_cases (text : String) (max_length : Nat)
    (hne : text ≠ "") :
    (firstLineOf text = "" →
      get_section_title_from_text text max_length = "Relevant Content") ∧
    (firstLineOf text ≠ "" → (firstLineOf text).length ≤ max_length →
      get_section_title_from_text text max_length = firstLineOf text) ∧
    (firstLineOf text ≠ "" → max_length < (firstLineOf text).length →
      ∃ stem rest : List Char,
        (firstLineOf text).toList.take max_length = stem ++ rest ∧
        get_section_title_from_text text max_length = String.mk stem ++ "..." ∧
        (' ' ∈ (firstLineOf text).toList.take max_length →
          rest.head? = some ' ' ∧ ' ' ∉ rest.drop 1) ∧
        (' ' ∉ (firstLineOf text).toList.take max_length → rest = [])) := by
  refine ⟨?_, ?_, ?_⟩
  · intro hfl
    simp [get_section_title_from_text, hne, hfl]
  · intro hfl hlen
    simp [get_section_title_from_text, hne, hfl, Nat.not_lt.mpr hlen]
  · intro hfl hlen
    have hres : get_section_title_from_text text max_length =
        String.mk (pyRsplitSpaceHead ((firstLineOf text).toList.take max_length))
          ++ "..." := by
      simp [get_section_title_from_text, hne, hfl, hlen]
    by_cases hsp : ' ' ∈ (firstLineOf text).toList.take max_length
    · obtain ⟨hdec, hafter⟩ := pyRsplitSpaceHead_split _ hsp
      refine ⟨pyRsplitSpaceHead ((firstLineOf text).toList.take max_length),
        ' ' :: (((firstLineOf text).toList.take max_length).reverse.takeWhile
          (fun c => c ≠ ' ')).reverse, hdec, hres, ?_, ?_⟩
      · intro _
        exact ⟨rfl, by simpa using hafter⟩
      · intro hnsp
        exact absurd hsp hnsp
    · refine ⟨(firstLineOf text).toList.take max_length, [], by simp, ?_, ?_,
        fun _ => rfl⟩
      · rw [hres]
        unfold pyRsplitSpaceHead
        rw [if_neg hsp]
      · intro hc
        exact absurd hc hsp

/-- Witness for the amended C6 at a concrete input: the first line of
"Hello World\nmore text" is short, so it is returned verbatim. -/
theorem title_derivation_cases_witness :
    ("Hello World\nmore text" : String) ≠ "" ∧
    get_section_title_from_text "Hello World\nmore text" 100 =
      firstLineOf "Hello World\nmore text" :=
  ⟨by decide,
    (title_derivation_cases "Hello World\nmore text" 100 (by decide)).2.1
      (by decide) (by decide)⟩
